import Mathlib

/-!
# NoKeyDoKey: press classifier and relay dispatch of `esp_32_keyless_entry.cpp`

A shallow embedding of the per-channel press state machine of `loop()` and of
`triggerAction`, followed by the properties of the specification.

Conventions of the embedding.

* `unsigned long` is 32 bits wide on the ESP32. Time stamps are natural numbers
  below `2^32`, and the unsigned subtraction `a - b` of the source is
  `(a + 2^32 - b) % 2^32`.
* The four global arrays `pressStart`, `lastPressTime`, `isPressing` and
  `doublePending` are indexed by the channel; iteration `i` of the `for` loop
  reads and writes index `i` only, so the state of one channel is a record of
  the four entries.
* A call `triggerAction(i, type)` does not touch the channel state and `now` is
  read once before the `for` loop, so one iteration of the loop body is a
  function from the channel record to the new record and the list of gesture
  types it passed to `triggerAction`, in call order.
-/

namespace NoKeyDoKey

/-! ## Constants -/

/-- Number of channels: `#define NUM_CHANNELS 4`. -/
def NUM_CHANNELS : Nat := 4

/-- Longest short press, in ms: `const unsigned long SHORT_PRESS_MAX = 400;` -/
def SHORT_PRESS_MAX : Nat := 400

/-- Shortest long press, in ms: `const unsigned long LONG_PRESS_MIN = 800;` -/
def LONG_PRESS_MIN : Nat := 800

/-- Longest gap between the releases of a double press, in ms:
`const unsigned long DOUBLE_PRESS_GAP = 500;` -/
def DOUBLE_PRESS_GAP : Nat := 500

/-- Number of values of an `unsigned long` on the target (32 bits). -/
def ULONG_MOD : Nat := 4294967296

/-- Input pins: `const int rfPins[NUM_CHANNELS] = {32, 33, 25, 26};` -/
def rfPins : Fin 4 → Nat
  | 0 => 32
  | 1 => 33
  | 2 => 25
  | 3 => 26

/-- Relay pins: `const int relayPins[NUM_CHANNELS] = {16, 17, 18, 19};` -/
def relayPins : Fin 4 → Nat
  | 0 => 16
  | 1 => 17
  | 2 => 18
  | 3 => 19

/-- Names of the press types: `String pressTypes[3] = {"short", "long", "double"};` -/
def pressTypes : Fin 3 → String
  | 0 => "short"
  | 1 => "long"
  | 2 => "double"

/-- Press type `0` of the mapping matrix: short press. -/
abbrev shortPress : Fin 3 := 0

/-- Press type `1` of the mapping matrix: long press. -/
abbrev longPress : Fin 3 := 1

/-- Press type `2` of the mapping matrix: double press. -/
abbrev doublePress : Fin 3 := 2

/-! ## Time -/

/-- Unsigned 32-bit subtraction `a - b` of two `unsigned long` values. -/
def usub (a b : Nat) : Nat := (a + ULONG_MOD - b) % ULONG_MOD

/-- Value returned by `millis()` when `t` milliseconds have elapsed since boot:
the counter is an `unsigned long` and wraps at `2^32`. -/
def millis (t : Nat) : Nat := t % ULONG_MOD

/-! ## Per-channel state and one iteration of the loop body -/

/-- Entries of the four press-handling arrays for one channel. -/
structure Channel where
  pressStart : Nat
  lastPressTime : Nat
  isPressing : Bool
  doublePending : Bool
  deriving DecidableEq, Repr

/-- First statement of the loop body (lines 68-71): a high level while no press
is in progress records the start of a press. -/
def pressBegin (now : Nat) (state : Bool) (c : Channel) : Channel :=
  if state && !c.isPressing then
    { c with pressStart := now, isPressing := true }
  else c

/-- Second statement of the loop body (lines 72-87): a low level while a press
is in progress is a release, classified by the held duration. -/
def pressRelease (now : Nat) (state : Bool) (c : Channel) : Channel × List (Fin 3) :=
  if !state && c.isPressing then
    let duration := usub now c.pressStart
    let c := { c with isPressing := false }
    if duration ≥ LONG_PRESS_MIN then
      ({ c with doublePending := false }, [longPress])
    else if duration ≤ SHORT_PRESS_MAX then
      if c.doublePending && decide (usub now c.lastPressTime ≤ DOUBLE_PRESS_GAP) then
        ({ c with doublePending := false }, [doublePress])
      else
        ({ c with doublePending := true, lastPressTime := now }, [])
    else (c, [])
  else (c, [])

/-- Third statement of the loop body (lines 88-91): a pending short press whose
gap has run out is reported as a short press. -/
def pendingTimeout (now : Nat) (c : Channel) : Channel × List (Fin 3) :=
  if c.doublePending && decide (usub now c.lastPressTime > DOUBLE_PRESS_GAP) then
    ({ c with doublePending := false }, [shortPress])
  else (c, [])

/-- One iteration of the `for` loop of `loop()` for a channel whose line reads
`state` at counter value `now`: the new channel record and the press types
passed to `triggerAction`, in call order. -/
def loopBody (now : Nat) (state : Bool) (c : Channel) : Channel × List (Fin 3) :=
  let c1 := pressBegin now state c
  let r := pressRelease now state c1
  let t := pendingTimeout now r.1
  (t.1, r.2 ++ t.2)

/-- Successive iterations of the loop body for one channel: each tick is the
elapsed time in milliseconds at which `loop()` read `millis()` and the level
sampled on the line. -/
def runTicks (c : Channel) : List (Nat × Bool) → Channel × List (Fin 3)
  | [] => (c, [])
  | (t, state) :: rest =>
    let s := loopBody (millis t) state c
    let r := runTicks s.1 rest
    (r.1, s.2 ++ r.2)

/-- Ticks at the given times that all sample the line low. -/
def lowTicks (ts : List Nat) : List (Nat × Bool) := ts.map fun t => (t, false)

/-- Ticks at the given times that all sample the line high. -/
def highTicks (ts : List Nat) : List (Nat × Bool) := ts.map fun t => (t, true)

/-! ## Dispatch -/

/-- Observable effects of `triggerAction`: a line on the serial log, a level
written to an output pin, and a blocking delay in milliseconds. -/
inductive Effect where
  | serialPrint (line : String)
  | digitalWrite (pin : Nat) (level : Bool)
  | delay (ms : Nat)
  deriving DecidableEq, Repr

/-- Pin and timing part of a trace: the trace without its serial log lines. -/
def pinTrace (es : List Effect) : List Effect :=
  es.filter fun e => match e with
    | .serialPrint _ => false
    | _ => true

/-- Largest value of a `long` on the target (32 bits). -/
def LONG_MAX : Int := 2147483647

/-- Smallest value of a `long` on the target (32 bits). -/
def LONG_MIN : Int := -2147483648

/-- C `isspace` in the "C" locale: space and the control characters 9 to 13. -/
def isspace (c : Char) : Bool :=
  c.toNat == 32 || (decide (9 ≤ c.toNat) && decide (c.toNat ≤ 13))

/-- Value of the longest prefix of decimal digits, read left to right. -/
def digitsValue : Nat → List Char → Nat
  | acc, [] => acc
  | acc, c :: cs =>
    if decide (48 ≤ c.toNat) && decide (c.toNat ≤ 57) then
      digitsValue (acc * 10 + (c.toNat - 48)) cs
    else acc

/-- Modelled from the spec: `String::toInt` belongs to the Arduino core, which is
not part of the repository; it returns `atol` of the character buffer. This is
C `atol`: leading white space is skipped, an optional sign is read, then the
longest run of decimal digits; with no digit the result is `0`. A value outside
the range of `long` saturates, as `strtol` does. -/
def atol (s : String) : Int :=
  match s.toList.dropWhile isspace with
  | '-' :: cs => max (-(digitsValue 0 cs : Int)) LONG_MIN
  | '+' :: cs => min (digitsValue 0 cs : Int) LONG_MAX
  | cs => min (digitsValue 0 cs : Int) LONG_MAX

/-- Line written by `Serial.printf("Channel %d, %s press: %s\n", ch + 1, ...)`. -/
def logLine (ch : Fin 4) (type : Fin 3) (action : String) : String :=
  "Channel " ++ toString (ch.val + 1) ++ ", " ++ pressTypes type ++ " press: " ++ action ++ "\n"

/-- Effects of `triggerAction(ch, type)`, in order. `actions` is
the mapping matrix `String actions[NUM_CHANNELS][3]` and `toInt` the integer
conversion `String::toInt` of the stored action. -/
def triggerAction (toInt : String → Int) (actions : Fin 4 → Fin 3 → String)
    (ch : Fin 4) (type : Fin 3) : List Effect :=
  let action := actions ch type
  let log := Effect.serialPrint (logLine ch type action)
  if action = "none" then [log]
  else
    let relayIndex := toInt action
    if h : 0 ≤ relayIndex ∧ relayIndex < (NUM_CHANNELS : Int) then
      let pin := relayPins ⟨relayIndex.toNat, by
        have := h.2
        simp only [NUM_CHANNELS] at this
        omega⟩
      [log, Effect.digitalWrite pin true, Effect.delay 300, Effect.digitalWrite pin false]
    else [log]

/-- The `for` loop of `loop()` over the four channels at counter value `now`:
`digitalRead` gives the level of each input pin, `st` the channel records. The
result is the new records and the effects of the `triggerAction` calls in
order. (`server.handleClient()` runs before and is not part of the model.) -/
def loop (toInt : String → Int) (actions : Fin 4 → Fin 3 → String) (now : Nat)
    (digitalRead : Nat → Bool) (st : Fin 4 → Channel) : (Fin 4 → Channel) × List Effect :=
  (fun i => (loopBody now (digitalRead (rfPins i)) (st i)).1,
   ((List.finRange 4).map fun i =>
      (((loopBody now (digitalRead (rfPins i)) (st i)).2).map
        (triggerAction toInt actions i)).flatten).flatten)

/-! ## Single-tick properties of the classifier -/

/-- Unsigned subtraction recovers a true elapsed duration below `2^32`, also
across a wrap of the counter. -/
theorem usub_add_mod (s d : Nat) (hs : s < ULONG_MOD) (hd : d < ULONG_MOD) :
    usub ((s + d) % ULONG_MOD) s = d := by
  unfold usub ULONG_MOD at *
  omega

/-- Unsigned subtraction of two readings of `millis` taken less than `2^32` ms
apart, in order, is the true elapsed time. -/
theorem usub_millis (a b : Nat) (hab : a ≤ b) (hd : b - a < ULONG_MOD) :
    usub (millis b) (millis a) = b - a := by
  unfold usub millis ULONG_MOD at *
  omega

/-- A reading subtracted from itself is zero. -/
theorem usub_self (a : Nat) : usub a a = 0 := by
  unfold usub ULONG_MOD
  omega

/-- C1. Release classification by held duration. A press in progress since
counter value `s`, with no short press pending, is released on the tick whose
counter value is `(s + d) mod 2^32`, `d` being the true held duration. The tick
emits Long iff `d ≥ 800` (and then nothing else); it emits nothing and leaves
the channel short-pending with `lastPressTime = now` iff `d ≤ 400`; it emits
nothing and leaves `doublePending` clear iff `400 < d < 800`; `isPressing` is
clear afterwards in every case. -/
theorem release_classification (c : Channel) (s d : Nat)
    (hs : s < ULONG_MOD) (hd : d < ULONG_MOD)
    (hp : c.isPressing = true) (hstart : c.pressStart = s)
    (hdp : c.doublePending = false) :
    (longPress ∈ (loopBody ((s + d) % ULONG_MOD) false c).2 ↔ 800 ≤ d) ∧
    ((loopBody ((s + d) % ULONG_MOD) false c).2 = [longPress] ↔ 800 ≤ d) ∧
    (((loopBody ((s + d) % ULONG_MOD) false c).2 = [] ∧
        (loopBody ((s + d) % ULONG_MOD) false c).1.doublePending = true ∧
        (loopBody ((s + d) % ULONG_MOD) false c).1.lastPressTime = (s + d) % ULONG_MOD)
      ↔ d ≤ 400) ∧
    (((loopBody ((s + d) % ULONG_MOD) false c).2 = [] ∧
        (loopBody ((s + d) % ULONG_MOD) false c).1.doublePending = false)
      ↔ (400 < d ∧ d < 800)) ∧
    (loopBody ((s + d) % ULONG_MOD) false c).1.isPressing = false := by
  have hdur := usub_add_mod s d hs hd
  obtain ⟨ps, lp, ip, dp⟩ := c
  simp only at hp hstart hdp
  subst hp hstart hdp
  by_cases h8 : 800 ≤ d
  · simp [loopBody, pressBegin, pressRelease, pendingTimeout, hdur, LONG_PRESS_MIN,
      SHORT_PRESS_MAX, DOUBLE_PRESS_GAP, h8]
    omega
  · by_cases h4 : d ≤ 400
    · simp [loopBody, pressBegin, pressRelease, pendingTimeout, hdur, LONG_PRESS_MIN,
        SHORT_PRESS_MAX, DOUBLE_PRESS_GAP, h8, h4, usub_self]
    · simp [loopBody, pressBegin, pressRelease, pendingTimeout, hdur, LONG_PRESS_MIN,
        SHORT_PRESS_MAX, DOUBLE_PRESS_GAP, h8, h4]
      omega

/-- Witness of C1 across a wrap of the counter: the press starts 296 ms before
the counter wraps and is held 900 ms, so the release is sampled at counter
value 604; the tick emits Long. -/
theorem release_classification_witness :
    (4294967000 + 900) % ULONG_MOD = 604 ∧
    (loopBody ((4294967000 + 900) % ULONG_MOD) false ⟨4294967000, 0, true, false⟩).2
      = [longPress] :=
  ⟨by decide,
   (release_classification ⟨4294967000, 0, true, false⟩ 4294967000 900
      (by decide) (by decide) rfl rfl rfl).2.1.2 (by decide)⟩

/-- C9. At most one gesture per tick per channel: one iteration of the loop body
calls `triggerAction` at most once, whatever the channel state, the sampled
level and the counter value; in particular a timeout Short never shares a tick
with a Long or a Double. -/
theorem at_most_one_gesture (now : Nat) (state : Bool) (c : Channel) :
    (loopBody now state c).2.length ≤ 1 ∧
    ¬ (shortPress ∈ (loopBody now state c).2 ∧
        (longPress ∈ (loopBody now state c).2 ∨ doublePress ∈ (loopBody now state c).2)) := by
  obtain ⟨ps, lp, ip, dp⟩ := c
  cases state <;> cases ip <;> cases dp <;>
    simp [loopBody, pressBegin, pressRelease, pendingTimeout, usub_self, DOUBLE_PRESS_GAP] <;>
    split_ifs <;> simp_all [usub_self] <;> decide

/-- C8, counterexample. A short press is pending since counter value 0 and a
press is in progress since 1; the release is sampled at 900, so the pending gap
(900) exceeds 500, yet the tick emits Long only and no Short. -/
theorem pending_timeout_skipped_on_long_release :
    (⟨1, 0, true, true⟩ : Channel).doublePending = true ∧
    500 < usub 900 (⟨1, 0, true, true⟩ : Channel).lastPressTime ∧
    loopBody 900 false ⟨1, 0, true, true⟩ = (⟨1, 0, false, false⟩, [longPress]) ∧
    shortPress ∉ (loopBody 900 false ⟨1, 0, true, true⟩).2 := by
  decide

/-- C8, amended. When a tick begins with `doublePending` set and
`(now - lastPressTime) mod 2^32 > 500`, and the tick is not the release of a
press held at most 400 ms, `doublePending` is clear when the tick ends, and the
tick emits exactly Short, unless it is the release of a press held at least
800 ms, where it emits exactly Long. -/
theorem pending_timeout_tick (now : Nat) (state : Bool) (c : Channel)
    (hdp : c.doublePending = true) (hgap : 500 < usub now c.lastPressTime)
    (hrel : ¬ (state = false ∧ c.isPressing = true ∧ usub now c.pressStart ≤ 400)) :
    (loopBody now state c).1.doublePending = false ∧
    (loopBody now state c).2 =
      (if state = false ∧ c.isPressing = true ∧ 800 ≤ usub now c.pressStart
        then [longPress] else [shortPress]) := by
  obtain ⟨ps, lp, ip, dp⟩ := c
  simp only at hdp hgap hrel
  subst hdp
  cases state <;> cases ip <;>
    simp [loopBody, pressBegin, pressRelease, pendingTimeout, DOUBLE_PRESS_GAP,
      LONG_PRESS_MIN, SHORT_PRESS_MAX, hgap] at hrel ⊢
  by_cases h8 : 800 ≤ usub now ps
  · simp [h8]
  · have h4 : ¬ usub now ps ≤ 400 := by omega
    simp [h8, h4, hgap]

/-- Witness of the amended C8: a short press is pending since 0, the line reads
high at 600 with no press in progress; the tick emits Short. -/
theorem pending_timeout_tick_witness :
    500 < usub 600 0 ∧
    loopBody 600 true ⟨0, 0, false, true⟩ = (⟨600, 0, true, false⟩, [shortPress]) :=
  ⟨by decide, by
    have h := pending_timeout_tick 600 true ⟨0, 0, false, true⟩ rfl (by decide) (by decide)
    exact Prod.ext (by decide) h.2⟩

/-! ## Runs of ticks -/

/-- Running two tick sequences one after the other. -/
theorem runTicks_append (c : Channel) (xs ys : List (Nat × Bool)) :
    runTicks c (xs ++ ys) =
      ((runTicks (runTicks c xs).1 ys).1, (runTicks c xs).2 ++ (runTicks (runTicks c xs).1 ys).2) := by
  induction xs generalizing c with
  | nil => simp [runTicks]
  | cons x xs ih =>
    obtain ⟨t, state⟩ := x
    simp [runTicks, ih, List.append_assoc]

/-- A tick whose level agrees with the press flag, and, when a short press is
pending, whose gap has not run out, changes nothing and emits nothing. -/
theorem loopBody_quiet (now : Nat) (state : Bool) (c : Channel)
    (hs : state = c.isPressing)
    (hg : c.doublePending = true → usub now c.lastPressTime ≤ 500) :
    loopBody now state c = (c, []) := by
  obtain ⟨ps, lp, ip, dp⟩ := c
  simp only at hs hg
  subst hs
  cases state <;> cases dp <;>
    simp_all [loopBody, pressBegin, pressRelease, pendingTimeout, DOUBLE_PRESS_GAP]

/-- A run of ticks that are all quiet in the sense of `loopBody_quiet`. -/
theorem runTicks_quiet (c : Channel) (ticks : List (Nat × Bool))
    (h : ∀ x ∈ ticks, x.2 = c.isPressing ∧
      (c.doublePending = true → usub (millis x.1) c.lastPressTime ≤ 500)) :
    runTicks c ticks = (c, []) := by
  induction ticks with
  | nil => rfl
  | cons x xs ih =>
    obtain ⟨t, state⟩ := x
    have hx := h (t, state) (List.mem_cons_self _ _)
    have hq := loopBody_quiet (millis t) state c hx.1 hx.2
    have hrest := ih fun y hy => h y (List.mem_cons_of_mem _ hy)
    simp [runTicks, hq, hrest]

/-- Low ticks on a channel with no press in progress and nothing pending. -/
theorem runTicks_low_idle (c : Channel) (ts : List Nat)
    (hp : c.isPressing = false) (hdp : c.doublePending = false) :
    runTicks c (lowTicks ts) = (c, []) := by
  apply runTicks_quiet
  intro x hx
  simp only [lowTicks, List.mem_map] at hx
  obtain ⟨t, _, rfl⟩ := hx
  simp [hp, hdp]

/-- High ticks while a press is in progress and nothing is pending. -/
theorem runTicks_high_pressing (c : Channel) (ts : List Nat)
    (hp : c.isPressing = true) (hdp : c.doublePending = false) :
    runTicks c (highTicks ts) = (c, []) := by
  apply runTicks_quiet
  intro x hx
  simp only [highTicks, List.mem_map] at hx
  obtain ⟨t, _, rfl⟩ := hx
  simp [hp, hdp]

/-- Low ticks inside the gap of a pending short press released at time `r`. -/
theorem runTicks_low_pending (ps r : Nat) (ts : List Nat)
    (h : ∀ x ∈ ts, r ≤ x ∧ x ≤ r + 500) :
    runTicks ⟨ps, millis r, false, true⟩ (lowTicks ts) = (⟨ps, millis r, false, true⟩, []) := by
  apply runTicks_quiet
  intro x hx
  simp only [lowTicks, List.mem_map] at hx
  obtain ⟨t, ht, rfl⟩ := hx
  have hb := h t ht
  refine ⟨rfl, fun _ => ?_⟩
  show usub (millis t) (millis r) ≤ 500
  rw [usub_millis r t hb.1 (by unfold ULONG_MOD; omega)]
  omega

/-- High ticks inside the gap of a pending short press released at time `r`,
while the next press is in progress. -/
theorem runTicks_high_pending (ps r : Nat) (ts : List Nat)
    (h : ∀ x ∈ ts, r ≤ x ∧ x ≤ r + 500) :
    runTicks ⟨ps, millis r, true, true⟩ (highTicks ts) = (⟨ps, millis r, true, true⟩, []) := by
  apply runTicks_quiet
  intro x hx
  simp only [highTicks, List.mem_map] at hx
  obtain ⟨t, ht, rfl⟩ := hx
  have hb := h t ht
  refine ⟨rfl, fun _ => ?_⟩
  show usub (millis t) (millis r) ≤ 500
  rw [usub_millis r t hb.1 (by unfold ULONG_MOD; omega)]
  omega

/-- C10. A long press clears pending-double state. From any channel state with a
press in progress, the tick that samples its release after at least 800 ms emits
Long and ends with `doublePending` clear, whatever `doublePending` and
`lastPressTime` were. The next press (line low, then high, then released after
at most 400 ms, at any times) therefore emits no Double: its release emits
nothing and starts a fresh pending short press. -/
theorem long_press_clears_pending (c : Channel) (t0 p r : Nat) (lows highs : List Nat)
    (hp : c.isPressing = true) (hlong : 800 ≤ usub (millis t0) c.pressStart)
    (hshort : usub (millis r) (millis p) ≤ 400) :
    loopBody (millis t0) false c = (⟨c.pressStart, c.lastPressTime, false, false⟩, [longPress]) ∧
    runTicks c ((t0, false) :: lowTicks lows ++ (p, true) :: highTicks highs) =
      (⟨millis p, c.lastPressTime, true, false⟩, [longPress]) ∧
    runTicks c ((t0, false) :: lowTicks lows ++ (p, true) :: highTicks highs ++ [(r, false)]) =
      (⟨millis p, millis r, false, true⟩, [longPress]) := by
  obtain ⟨ps, lp, ip, dp⟩ := c
  simp only at hp hlong
  subst hp
  have h0 : loopBody (millis t0) false ⟨ps, lp, true, dp⟩ = (⟨ps, lp, false, false⟩, [longPress]) := by
    simp [loopBody, pressBegin, pressRelease, pendingTimeout, LONG_PRESS_MIN, hlong]
  have h1 : runTicks ⟨ps, lp, false, false⟩ (lowTicks lows) = (⟨ps, lp, false, false⟩, []) :=
    runTicks_low_idle _ _ rfl rfl
  have h2 : loopBody (millis p) true ⟨ps, lp, false, false⟩ = (⟨millis p, lp, true, false⟩, []) := by
    simp [loopBody, pressBegin, pressRelease, pendingTimeout]
  have h3 : runTicks ⟨millis p, lp, true, false⟩ (highTicks highs)
      = (⟨millis p, lp, true, false⟩, []) :=
    runTicks_high_pressing _ _ rfl rfl
  have h4 : loopBody (millis r) false ⟨millis p, lp, true, false⟩
      = (⟨millis p, millis r, false, true⟩, []) := by
    have h8 : ¬ 800 ≤ usub (millis r) (millis p) := by omega
    simp [loopBody, pressBegin, pressRelease, pendingTimeout, LONG_PRESS_MIN, SHORT_PRESS_MAX,
      DOUBLE_PRESS_GAP, hshort, h8, usub_self]
  refine ⟨h0, ?_, ?_⟩
  · simp [runTicks, runTicks_append, h0, h1, h2, h3]
  · simp [runTicks, runTicks_append, h0, h1, h2, h3, h4]

/-- Witness of C10: a short press is pending since 1000, a press in progress
since 1100 is released at 2000 (held 900 ms); the line stays low at 2050, reads
high at 2100 and 2200 and low at 2300 (held 200 ms, 300 ms after the long
release). Only Long is emitted and the short press is freshly pending. -/
theorem long_press_clears_pending_witness :
    runTicks ⟨1100, 1000, true, true⟩
        ((2000, false) :: lowTicks [2050] ++ (2100, true) :: highTicks [2200] ++ [(2300, false)])
      = (⟨millis 2100, millis 2300, false, true⟩, [longPress]) :=
  (long_press_clears_pending ⟨1100, 1000, true, true⟩ 2000 2100 2300 [2050] [2200]
    rfl (by decide) (by decide)).2.2

/-- Order facts carried by a non-decreasing tick sequence made of two presses:
`lows0`, first press sampled from `p1`, release sampled at `r1`, `lows1`, second
press sampled from `p2`, release sampled at `r2`, `lows2`. -/
theorem two_press_order (lows0 highs1 lows1 highs2 lows2 : List Nat) (p1 r1 p2 r2 : Nat)
    (hsorted : List.Sorted (· ≤ ·)
      (lows0 ++ p1 :: highs1 ++ r1 :: lows1 ++ p2 :: highs2 ++ r2 :: lows2)) :
    p1 ≤ r1 ∧ r1 ≤ p2 ∧ p2 ≤ r2 ∧ (∀ x ∈ lows1, r1 ≤ x ∧ x ≤ r2) ∧
      (∀ x ∈ highs2, r1 ≤ x ∧ x ≤ r2) := by
  simp only [List.Sorted, List.pairwise_append, List.pairwise_cons, List.mem_append,
    List.mem_cons] at hsorted
  obtain ⟨⟨⟨⟨-, ⟨-, -⟩, -⟩, ⟨h1, -⟩, h2⟩, ⟨-, -⟩, h4⟩, ⟨-, -⟩, h6⟩ := hsorted
  refine ⟨h2 p1 (Or.inr (Or.inl rfl)) r1 (Or.inl rfl),
    h4 r1 (Or.inr (Or.inl rfl)) p2 (Or.inl rfl),
    h6 p2 (Or.inr (Or.inl rfl)) r2 (Or.inl rfl), ?_, ?_⟩
  · intro x hx
    exact ⟨h1 x hx, h6 x (Or.inl (Or.inr (Or.inr hx))) r2 (Or.inl rfl)⟩
  · intro x hx
    exact ⟨h4 r1 (Or.inr (Or.inl rfl)) x (Or.inr hx),
      h6 x (Or.inr (Or.inr hx)) r2 (Or.inl rfl)⟩

/-- C2. Double press. A channel is idle with nothing pending. The ticks, at
non-decreasing times, sample the line low (`lows0`), high from `p1`, low from
`r1` (`lows1`), high from `p2`, low from `r2` (`lows2`), with `r1 - p1 ≤ 400`,
`r2 - p2 ≤ 400` and `r2 - r1 ≤ 500`. Nothing is emitted before the tick at
`r2`; the whole run emits exactly one Double and no Short, and ends with no
press in progress and `doublePending` clear. -/
theorem double_press (c : Channel) (lows0 highs1 lows1 highs2 lows2 : List Nat)
    (p1 r1 p2 r2 : Nat)
    (hidle : c.isPressing = false) (hdp : c.doublePending = false)
    (hsorted : List.Sorted (· ≤ ·)
      (lows0 ++ p1 :: highs1 ++ r1 :: lows1 ++ p2 :: highs2 ++ r2 :: lows2))
    (hheld1 : r1 - p1 ≤ 400) (hheld2 : r2 - p2 ≤ 400) (hgap : r2 - r1 ≤ 500) :
    (runTicks c (lowTicks lows0 ++ (p1, true) :: highTicks highs1 ++ (r1, false) :: lowTicks lows1
        ++ (p2, true) :: highTicks highs2)).2 = [] ∧
    runTicks c (lowTicks lows0 ++ (p1, true) :: highTicks highs1 ++ (r1, false) :: lowTicks lows1
        ++ (p2, true) :: highTicks highs2 ++ [(r2, false)])
      = (⟨millis p2, millis r1, false, false⟩, [doublePress]) ∧
    runTicks c (lowTicks lows0 ++ (p1, true) :: highTicks highs1 ++ (r1, false) :: lowTicks lows1
        ++ (p2, true) :: highTicks highs2 ++ (r2, false) :: lowTicks lows2)
      = (⟨millis p2, millis r1, false, false⟩, [doublePress]) := by
  obtain ⟨h11, h12, h22, hl1, hh2⟩ :=
    two_press_order lows0 highs1 lows1 highs2 lows2 p1 r1 p2 r2 hsorted
  obtain ⟨ps, lp, ip, dp⟩ := c
  simp only at hidle hdp
  subst hidle hdp
  have d1 : usub (millis r1) (millis p1) = r1 - p1 :=
    usub_millis p1 r1 h11 (by unfold ULONG_MOD; omega)
  have d2 : usub (millis r2) (millis p2) = r2 - p2 :=
    usub_millis p2 r2 h22 (by unfold ULONG_MOD; omega)
  have g1 : usub (millis p2) (millis r1) = p2 - r1 :=
    usub_millis r1 p2 h12 (by unfold ULONG_MOD; omega)
  have g2 : usub (millis r2) (millis r1) = r2 - r1 :=
    usub_millis r1 r2 (by omega) (by unfold ULONG_MOD; omega)
  have hA : runTicks ⟨ps, lp, false, false⟩ (lowTicks lows0) = (⟨ps, lp, false, false⟩, []) :=
    runTicks_low_idle _ _ rfl rfl
  have hB : loopBody (millis p1) true ⟨ps, lp, false, false⟩
      = (⟨millis p1, lp, true, false⟩, []) := by
    simp [loopBody, pressBegin, pressRelease, pendingTimeout]
  have hC : runTicks ⟨millis p1, lp, true, false⟩ (highTicks highs1)
      = (⟨millis p1, lp, true, false⟩, []) :=
    runTicks_high_pressing _ _ rfl rfl
  have hD : loopBody (millis r1) false ⟨millis p1, lp, true, false⟩
      = (⟨millis p1, millis r1, false, true⟩, []) := by
    have h8 : ¬ 800 ≤ r1 - p1 := by omega
    simp [loopBody, pressBegin, pressRelease, pendingTimeout, LONG_PRESS_MIN, SHORT_PRESS_MAX,
      DOUBLE_PRESS_GAP, d1, hheld1, h8, usub_self]
  have hE : runTicks ⟨millis p1, millis r1, false, true⟩ (lowTicks lows1)
      = (⟨millis p1, millis r1, false, true⟩, []) :=
    runTicks_low_pending _ _ _ fun x hx => ⟨(hl1 x hx).1, by have := (hl1 x hx).2; omega⟩
  have hF : loopBody (millis p2) true ⟨millis p1, millis r1, false, true⟩
      = (⟨millis p2, millis r1, true, true⟩, []) := by
    have hg : ¬ 500 < p2 - r1 := by omega
    simp [loopBody, pressBegin, pressRelease, pendingTimeout, DOUBLE_PRESS_GAP, g1, hg]
  have hG : runTicks ⟨millis p2, millis r1, true, true⟩ (highTicks highs2)
      = (⟨millis p2, millis r1, true, true⟩, []) :=
    runTicks_high_pending _ _ _ fun x hx => ⟨(hh2 x hx).1, by have := (hh2 x hx).2; omega⟩
  have hH : loopBody (millis r2) false ⟨millis p2, millis r1, true, true⟩
      = (⟨millis p2, millis r1, false, false⟩, [doublePress]) := by
    have h8 : ¬ 800 ≤ r2 - p2 := by omega
    simp [loopBody, pressBegin, pressRelease, pendingTimeout, LONG_PRESS_MIN, SHORT_PRESS_MAX,
      DOUBLE_PRESS_GAP, d2, g2, hheld2, hgap, h8]
  have hI : runTicks ⟨millis p2, millis r1, false, false⟩ (lowTicks lows2)
      = (⟨millis p2, millis r1, false, false⟩, []) :=
    runTicks_low_idle _ _ rfl rfl
  refine ⟨?_, ?_, ?_⟩
  · simp [runTicks, runTicks_append, hA, hB, hC, hD, hE, hF, hG]
  · simp [runTicks, runTicks_append, hA, hB, hC, hD, hE, hF, hG, hH]
  · simp [runTicks, runTicks_append, hA, hB, hC, hD, hE, hF, hG, hH, hI]

/-- Witness of C2 (scenario 2): press sampled at 1000 and held 200 ms, release
at 1200, 100 ms low, press sampled at 1300 and held 150 ms, release at 1450,
then low; one Double is emitted, at the tick of the second release. -/
theorem double_press_witness :
    (runTicks ⟨0, 0, false, false⟩ (lowTicks [900] ++ (1000, true) :: highTicks [1100]
        ++ (1200, false) :: lowTicks [1250] ++ (1300, true) :: highTicks [1400])).2 = [] ∧
    runTicks ⟨0, 0, false, false⟩ (lowTicks [900] ++ (1000, true) :: highTicks [1100]
        ++ (1200, false) :: lowTicks [1250] ++ (1300, true) :: highTicks [1400]
        ++ (1450, false) :: lowTicks [1500, 2500])
      = (⟨millis 1300, millis 1200, false, false⟩, [doublePress]) :=
  have h := double_press ⟨0, 0, false, false⟩ [900] [1100] [1250] [1400] [1500, 2500]
    1000 1200 1300 1450 rfl rfl (by decide) (by decide) (by decide) (by decide)
  ⟨h.1, h.2.2⟩

/-- C3, counterexample. A press in progress since 800 is released at 1000 (held
200 ms), which leaves the short press pending with `lastPressTime = 1000`. The
tick at 1500, that is at `t + 500`, emits nothing and leaves `doublePending`
set; the Short is emitted by the tick at 1501. -/
theorem lone_short_not_at_gap :
    runTicks ⟨800, 0, true, false⟩ [(1000, false)] = (⟨800, 1000, false, true⟩, []) ∧
    loopBody (millis 1500) false ⟨800, 1000, false, true⟩ = (⟨800, 1000, false, true⟩, []) ∧
    runTicks ⟨800, 0, true, false⟩ [(1000, false), (1500, false)]
      = (⟨800, 1000, false, true⟩, []) ∧
    runTicks ⟨800, 0, true, false⟩ [(1000, false), (1500, false), (1501, false)]
      = (⟨800, 1000, false, false⟩, [shortPress]) := by
  decide

/-- C3, amended. A press held at most 400 ms is released at time `t` and the
release leaves it pending (it is not paired into a Double), then the line stays
low. No tick at a time from `t` to `t + 500` emits anything, and the first tick
later than `t + 500` (and within one period of the counter) emits Short and
clears `doublePending`; the ticks after it emit nothing, so the run emits
exactly one Short. -/
theorem lone_short_press (c : Channel) (t t' : Nat) (early late : List Nat)
    (hp : c.isPressing = true) (hheld : usub (millis t) c.pressStart ≤ 400)
    (hfresh : ¬ (c.doublePending = true ∧ usub (millis t) c.lastPressTime ≤ 500))
    (hearly : ∀ x ∈ early, t ≤ x ∧ x ≤ t + 500)
    (hlate : t + 500 < t' ∧ t' < t + ULONG_MOD) :
    runTicks c ((t, false) :: lowTicks early) = (⟨c.pressStart, millis t, false, true⟩, []) ∧
    loopBody (millis t') false ⟨c.pressStart, millis t, false, true⟩
      = (⟨c.pressStart, millis t, false, false⟩, [shortPress]) ∧
    runTicks c ((t, false) :: lowTicks early ++ (t', false) :: lowTicks late)
      = (⟨c.pressStart, millis t, false, false⟩, [shortPress]) := by
  obtain ⟨ps, lp, ip, dp⟩ := c
  simp only at hp hheld hfresh
  subst hp
  have h8 : ¬ 800 ≤ usub (millis t) ps := by omega
  have hA : loopBody (millis t) false ⟨ps, lp, true, dp⟩ = (⟨ps, millis t, false, true⟩, []) := by
    cases dp
    · simp [loopBody, pressBegin, pressRelease, pendingTimeout, LONG_PRESS_MIN, SHORT_PRESS_MAX,
        DOUBLE_PRESS_GAP, hheld, h8, usub_self]
    · have hg : ¬ usub (millis t) lp ≤ 500 := by simpa using hfresh
      simp [loopBody, pressBegin, pressRelease, pendingTimeout, LONG_PRESS_MIN, SHORT_PRESS_MAX,
        DOUBLE_PRESS_GAP, hheld, h8, hg, usub_self]
  have hB : runTicks ⟨ps, millis t, false, true⟩ (lowTicks early)
      = (⟨ps, millis t, false, true⟩, []) :=
    runTicks_low_pending _ _ _ hearly
  have g : usub (millis t') (millis t) = t' - t :=
    usub_millis t t' (by omega) (by omega)
  have hC : loopBody (millis t') false ⟨ps, millis t, false, true⟩
      = (⟨ps, millis t, false, false⟩, [shortPress]) := by
    have hg : 500 < t' - t := by omega
    simp [loopBody, pressBegin, pressRelease, pendingTimeout, DOUBLE_PRESS_GAP, g, hg]
  have hD : runTicks ⟨ps, millis t, false, false⟩ (lowTicks late)
      = (⟨ps, millis t, false, false⟩, []) :=
    runTicks_low_idle _ _ rfl rfl
  refine ⟨?_, hC, ?_⟩
  · simp [runTicks, hA, hB]
  · simp [runTicks, runTicks_append, hA, hB, hC, hD]

/-- Witness of the amended C3 (scenario 1): a press in progress since 800 is
released at 1000 (held 200 ms); the line is sampled low at 1250 and 1500, where
nothing is emitted, and at 1600, where the Short is emitted; later ticks emit
nothing. -/
theorem lone_short_press_witness :
    runTicks ⟨800, 0, true, false⟩ ((1000, false) :: lowTicks [1250, 1500])
      = (⟨800, millis 1000, false, true⟩, []) ∧
    runTicks ⟨800, 0, true, false⟩
        ((1000, false) :: lowTicks [1250, 1500] ++ (1600, false) :: lowTicks [1700, 5000])
      = (⟨800, millis 1000, false, false⟩, [shortPress]) :=
  have h := lone_short_press ⟨800, 0, true, false⟩ 1000 1600 [1250, 1500] [1700, 5000]
    rfl (by decide) (by decide) (by decide) (by decide)
  ⟨h.1, h.2.2⟩

/-- The release of a second short press on the first tick that samples an
expired gap overwrites the pending press. A channel is idle with nothing
pending; the line is sampled low, high from `p1`, low from `r1`, high from `p2`
and low from `r2`, both presses held at most 400 ms. Every tick after `r1` and
before `r2` falls within 500 ms of `r1`, and `r2` is later than `r1 + 500`.
After `r2` the line is sampled low within 500 ms (`mid`), then later (`t` and
`late`). The run emits one Short only, at `t`, at any polling rate. -/
theorem second_release_overwrites_pending (c : Channel)
    (lows0 highs1 lows1 highs2 mid late : List Nat) (p1 r1 p2 r2 t : Nat)
    (hidle : c.isPressing = false) (hdp : c.doublePending = false)
    (h11 : p1 ≤ r1) (hheld1 : r1 - p1 ≤ 400) (h22 : p2 ≤ r2) (hheld2 : r2 - p2 ≤ 400)
    (hl1 : ∀ x ∈ lows1, r1 ≤ x ∧ x ≤ r1 + 500) (hp2 : r1 ≤ p2 ∧ p2 ≤ r1 + 500)
    (hh2 : ∀ x ∈ highs2, r1 ≤ x ∧ x ≤ r1 + 500)
    (hgap : r1 + 500 < r2 ∧ r2 < r1 + ULONG_MOD)
    (hmid : ∀ x ∈ mid, r2 ≤ x ∧ x ≤ r2 + 500) (ht : r2 + 500 < t ∧ t < r2 + ULONG_MOD) :
    runTicks c (lowTicks lows0 ++ (p1, true) :: highTicks highs1 ++ (r1, false) :: lowTicks lows1
        ++ (p2, true) :: highTicks highs2 ++ (r2, false) :: lowTicks mid
        ++ (t, false) :: lowTicks late)
      = (⟨millis p2, millis r2, false, false⟩, [shortPress]) := by
  obtain ⟨ps, lp, ip, dp⟩ := c
  simp only at hidle hdp
  subst hidle hdp
  have d1 : usub (millis r1) (millis p1) = r1 - p1 :=
    usub_millis p1 r1 h11 (by unfold ULONG_MOD; omega)
  have d2 : usub (millis r2) (millis p2) = r2 - p2 :=
    usub_millis p2 r2 h22 (by unfold ULONG_MOD; omega)
  have g1 : usub (millis p2) (millis r1) = p2 - r1 :=
    usub_millis r1 p2 hp2.1 (by unfold ULONG_MOD; omega)
  have g2 : usub (millis r2) (millis r1) = r2 - r1 :=
    usub_millis r1 r2 (by omega) (by omega)
  have g3 : usub (millis t) (millis r2) = t - r2 :=
    usub_millis r2 t (by omega) (by omega)
  have hA : runTicks ⟨ps, lp, false, false⟩ (lowTicks lows0) = (⟨ps, lp, false, false⟩, []) :=
    runTicks_low_idle _ _ rfl rfl
  have hB : loopBody (millis p1) true ⟨ps, lp, false, false⟩
      = (⟨millis p1, lp, true, false⟩, []) := by
    simp [loopBody, pressBegin, pressRelease, pendingTimeout]
  have hC : runTicks ⟨millis p1, lp, true, false⟩ (highTicks highs1)
      = (⟨millis p1, lp, true, false⟩, []) :=
    runTicks_high_pressing _ _ rfl rfl
  have hD : loopBody (millis r1) false ⟨millis p1, lp, true, false⟩
      = (⟨millis p1, millis r1, false, true⟩, []) := by
    have h8 : ¬ 800 ≤ r1 - p1 := by omega
    simp [loopBody, pressBegin, pressRelease, pendingTimeout, LONG_PRESS_MIN, SHORT_PRESS_MAX,
      DOUBLE_PRESS_GAP, d1, hheld1, h8, usub_self]
  have hE : runTicks ⟨millis p1, millis r1, false, true⟩ (lowTicks lows1)
      = (⟨millis p1, millis r1, false, true⟩, []) :=
    runTicks_low_pending _ _ _ hl1
  have hF : loopBody (millis p2) true ⟨millis p1, millis r1, false, true⟩
      = (⟨millis p2, millis r1, true, true⟩, []) := by
    have hg : ¬ 500 < p2 - r1 := by omega
    simp [loopBody, pressBegin, pressRelease, pendingTimeout, DOUBLE_PRESS_GAP, g1, hg]
  have hG : runTicks ⟨millis p2, millis r1, true, true⟩ (highTicks highs2)
      = (⟨millis p2, millis r1, true, true⟩, []) :=
    runTicks_high_pending _ _ _ hh2
  have hH : loopBody (millis r2) false ⟨millis p2, millis r1, true, true⟩
      = (⟨millis p2, millis r2, false, true⟩, []) := by
    have h8 : ¬ 800 ≤ r2 - p2 := by omega
    have hg : ¬ r2 - r1 ≤ 500 := by omega
    simp [loopBody, pressBegin, pressRelease, pendingTimeout, LONG_PRESS_MIN, SHORT_PRESS_MAX,
      DOUBLE_PRESS_GAP, d2, g2, hheld2, hg, h8, usub_self]
  have hI : runTicks ⟨millis p2, millis r2, false, true⟩ (lowTicks mid)
      = (⟨millis p2, millis r2, false, true⟩, []) :=
    runTicks_low_pending _ _ _ hmid
  have hJ : loopBody (millis t) false ⟨millis p2, millis r2, false, true⟩
      = (⟨millis p2, millis r2, false, false⟩, [shortPress]) := by
    have hg : 500 < t - r2 := by omega
    simp [loopBody, pressBegin, pressRelease, pendingTimeout, DOUBLE_PRESS_GAP, g3, hg]
  have hK : runTicks ⟨millis p2, millis r2, false, false⟩ (lowTicks late)
      = (⟨millis p2, millis r2, false, false⟩, []) :=
    runTicks_low_idle _ _ rfl rfl
  simp [runTicks, runTicks_append, hA, hB, hC, hD, hE, hF, hG, hH, hI, hJ, hK]

/-- C4, evaluation at the failing input. An idle channel is polled every 100 ms
and also at 701: the line reads high from 0, low from 200 (first press held
200 ms), high from 400, low from 701 (second press held 301 ms), and stays low
until 1300. The releases are 501 ms apart. The tick at 700 sees a gap of
exactly 500, which is not a timeout, and the release at 701 overwrites the
pending press: the whole run emits one Short (at 1300) and not two. -/
theorem separated_short_presses_one_short :
    runTicks ⟨0, 0, false, false⟩
        (highTicks [0, 100] ++ lowTicks [200, 300] ++ highTicks [400, 500, 600, 700]
          ++ lowTicks [701, 800, 900, 1000, 1100, 1200])
      = (⟨400, 701, false, true⟩, []) ∧
    runTicks ⟨0, 0, false, false⟩
        (highTicks [0, 100] ++ lowTicks [200, 300] ++ highTicks [400, 500, 600, 700]
          ++ lowTicks [701, 800, 900, 1000, 1100, 1200, 1300, 1400])
      = (⟨400, 701, false, false⟩, [shortPress]) := by
  decide

/-! ## Dispatch properties -/

/-- C5. Defensive clamp. When the relay index that `triggerAction` parses from
the stored action is at least `NUM_CHANNELS` (4) or negative, the call only
writes its log line: its pin and timing trace is empty and no pin is written,
for every channel, press type and conversion `toInt`. -/
theorem out_of_range_no_relay (toInt : String → Int) (actions : Fin 4 → Fin 3 → String)
    (ch : Fin 4) (type : Fin 3)
    (h : 4 ≤ toInt (actions ch type) ∨ toInt (actions ch type) < 0) :
    triggerAction toInt actions ch type
      = [Effect.serialPrint (logLine ch type (actions ch type))] ∧
    pinTrace (triggerAction toInt actions ch type) = [] ∧
    ∀ pin level, Effect.digitalWrite pin level ∉ triggerAction toInt actions ch type := by
  have hcond : ¬ (0 ≤ toInt (actions ch type) ∧ toInt (actions ch type) < (NUM_CHANNELS : Int)) := by
    simp only [NUM_CHANNELS]
    omega
  have htrace : triggerAction toInt actions ch type
      = [Effect.serialPrint (logLine ch type (actions ch type))] := by
    unfold triggerAction
    by_cases hn : actions ch type = "none"
    · simp [hn]
    · simp only [hn, if_false, dif_neg hcond]
  refine ⟨htrace, ?_, ?_⟩
  · rw [htrace]
    rfl
  · intro pin level
    rw [htrace]
    simp

/-- Witness of C5: the stored action `"7"` parses to relay index 7; the gesture
on channel 0 writes no pin. -/
theorem out_of_range_no_relay_witness :
    atol "7" = 7 ∧
    pinTrace (triggerAction atol (fun _ _ => "7") 0 shortPress) = [] :=
  ⟨by decide,
   (out_of_range_no_relay atol (fun _ _ => "7") 0 shortPress (Or.inl (by decide))).2.1⟩

/-- C6, evaluation at failing inputs. The empty string and `"abc"` are neither
`"none"` nor the numeral of a relay index, and `atol` reads both as 0: the
range test passes and relay 0 (pin 16) is pulsed HIGH for 300 ms. -/
theorem invalid_action_pulses_relay_zero :
    atol "" = 0 ∧ atol "abc" = 0 ∧
    triggerAction atol (fun _ _ => "") 2 longPress =
      [Effect.serialPrint (logLine 2 longPress ""), Effect.digitalWrite 16 true,
        Effect.delay 300, Effect.digitalWrite 16 false] ∧
    triggerAction atol (fun _ _ => "abc") 2 longPress =
      [Effect.serialPrint (logLine 2 longPress "abc"), Effect.digitalWrite 16 true,
        Effect.delay 300, Effect.digitalWrite 16 false] := by
  decide

/-- C7. Relay pulse. When the stored action is not `"none"` and parses to a
valid relay index `r` in 0..3, `triggerAction(ch, type)` writes its log line
and then exactly: `relayPins[r]` HIGH, a 300 ms delay, `relayPins[r]` LOW. The
pin is chosen by `r` and not by `ch`, and the last write leaves it LOW. -/
theorem relay_pulse (toInt : String → Int) (actions : Fin 4 → Fin 3 → String)
    (ch : Fin 4) (type : Fin 3) (r : Fin 4)
    (hnone : actions ch type ≠ "none") (hr : toInt (actions ch type) = (r.val : Int)) :
    triggerAction toInt actions ch type
      = [Effect.serialPrint (logLine ch type (actions ch type)),
          Effect.digitalWrite (relayPins r) true, Effect.delay 300,
          Effect.digitalWrite (relayPins r) false] ∧
    pinTrace (triggerAction toInt actions ch type)
      = [Effect.digitalWrite (relayPins r) true, Effect.delay 300,
          Effect.digitalWrite (relayPins r) false] := by
  have hcond : 0 ≤ toInt (actions ch type) ∧ toInt (actions ch type) < (NUM_CHANNELS : Int) := by
    have := r.isLt
    simp only [NUM_CHANNELS]
    omega
  have hidx : (⟨(toInt (actions ch type)).toNat, by have := r.isLt; omega⟩ : Fin 4) = r := by
    apply Fin.ext
    simp [hr]
  have htrace : triggerAction toInt actions ch type
      = [Effect.serialPrint (logLine ch type (actions ch type)),
          Effect.digitalWrite (relayPins r) true, Effect.delay 300,
          Effect.digitalWrite (relayPins r) false] := by
    unfold triggerAction
    simp only [hnone, if_false, dif_pos hcond, hidx]
  refine ⟨htrace, ?_⟩
  rw [htrace]
  rfl

/-- The numerals offered by the configuration form denote the four relays:
`atol` reads the decimal numeral of `r` as `r`, and it is not `"none"`. -/
theorem atol_relay_numeral (r : Fin 4) :
    atol (toString r.val) = (r.val : Int) ∧ toString r.val ≠ "none" := by
  revert r
  decide

/-- Witness of C7: on channel 0 the stored action `"2"` pulses relay 2
(pin 18), not relay 0 (pin 16). -/
theorem relay_pulse_witness :
    pinTrace (triggerAction atol (fun _ _ => "2") 0 doublePress)
      = [Effect.digitalWrite 18 true, Effect.delay 300, Effect.digitalWrite 18 false] :=
  (relay_pulse atol (fun _ _ => "2") 0 doublePress 2 (by decide) (by decide)).2

end NoKeyDoKey
